import Mathlib

/-
  Verification development for `kolibri/auth/filters.py`
  (class `HierarchyRelationsFilter`).

  Shallow embedding notes:

  * Python exceptions are modelled by the error type `PyErr`, and every
    fallible Python operation is embedded as an `Except PyErr`-valued
    function.
  * A Django queryset is modelled syntactically by `Queryable`: the base
    queryset, `extra` nodes (each `queryset.extra(tables=..., where=...)`
    call appends one node carrying the table-alias declarations and the
    raw where clauses it attached), and `orQ` nodes (the `|` queryset
    union operator).
  * A caller-supplied reference (the values accepted by
    `_as_sql_reference`) is modelled by the closed sum `Ref`:
    a model instance (an object with an `id` attribute), a string
    literal, an integer literal, an `F` expression, or anything else.
    These variants are mutually exclusive in Python as well: strings,
    integers and `F` objects have no `id` attribute.
  * An `F` expression is modelled by `FExpr`, carrying the output of
    Django's `query.solve_lookup_type` on its name: the list of lookup
    qualifiers and the list of field-path parts.  The external schema
    introspection (`f_expr.resolve_expression` / `expression.target.
    get_attname()`) is modelled by `Schema.resolveField`, which returns
    the target field's attname for a valid field path and `none` when
    Django would raise a `FieldError`.  `resolve_expression` operates
    on the full lookup name, so a name carrying any explicit lookup
    qualifier already fails field resolution itself (see the doc
    comment on `_resolve_f_expression`).
  * Python's `str.format` interpolation of the table-name context into
    the `tables` templates is folded into the `*_tables` definitions,
    which take the `TableNames` record directly and build the exact
    strings the source produces.
  * Python's `sep.join(list)` is modelled by `pyJoin`.
-/

/-- Errors raised by the Python code, named after the specification's
error taxonomy: `fieldError` is Django's `FieldError`,
`unsupportedLookupQualifier` is the `AssertionError` from the qualifier
sanity check in `_resolve_f_expression` (unreachable — see the doc
comment there), `invalidReferenceKind` is the
`Exception("Not a valid reference: ...")` raised by `_as_sql_reference`,
and `pyTypeError` is Python's `TypeError` (raised e.g. by
`issubclass` on a non-class or by `str.join` on a non-iterable). -/
inductive PyErr where
  | fieldError
  | unsupportedLookupQualifier
  | invalidReferenceKind
  | pyTypeError
deriving DecidableEq, Repr

/-- An `F` expression, as seen through `query.solve_lookup_type(name)`:
`lookups` is the list of lookup qualifiers carried by the name
(Django returns `["exact"]` for a bare field reference) and `parts`
is the field-path component list. -/
structure FExpr where
  lookups : List String
  parts : List String
deriving DecidableEq, Repr

/-- The schema of the base queryset's model, as consulted by
`_resolve_f_expression`: `dbTable` is `queryset.model._meta.db_table`,
and `resolveField parts` models resolving the field path against the
model — it returns `some attname` (the target field's
`get_attname()`, e.g. `my_fkname` resolves to `my_fkname_id`) for a
valid path and `none` where Django raises `FieldError`. -/
structure Schema where
  dbTable : String
  resolveField : List String → Option String

/-- A caller-supplied reference value, the closed sum over the variants
inspected by `_as_sql_reference`. -/
inductive Ref where
  | entity (id : Int)
  | strLit (s : String)
  | intLit (n : Int)
  | fexpr (f : FExpr)
  | other
deriving DecidableEq, Repr

/-- The store-level reference produced by `_as_sql_reference`: a Python
int or a Python string (interpolated into the where clause by
`str.format`). -/
inductive SQLRef where
  | intRef (n : Int)
  | strRef (s : String)
deriving DecidableEq, Repr

/-- How `str.format` renders an `SQLRef` into a where clause. -/
def sqlRefStr : SQLRef → String
  | .intRef n => toString n
  | .strRef s => s

/-- Python `sep.join(list)`. -/
def pyJoin (sep : String) : List String → String
  | [] => ""
  | [a] => a
  | a :: rest => a ++ sep ++ pyJoin sep rest

/-- `HierarchyRelationsFilter._resolve_f_expression`.  The first
statement runs `f_expr.resolve_expression(self.queryset.query)` on the
*full* lookup name: Django's `resolve_ref` / `setup_joins` /
`names_to_path` (with `fail_on_missing=True`) raises `FieldError`
unless the entire name is a pure field path — in particular a trailing
lookup-qualifier word (`__gt`, `__contains`, ...) is itself rejected as
an unresolvable field keyword.  The name therefore resolves only when
`solve_lookup_type` classifies it with the single implicit `"exact"`
lookup and the field path is valid, so the subsequent
`assert len(lookups) == 1 and lookups[0] == "exact"` (the spec's
`UnsupportedLookupQualifier`) is reached only in that state and can
never fire.  Finally the last path part is replaced by the target
field's attname and the reference is joined with the base table name.
(An explicitly spelled `__exact` suffix, which Django's full-name
resolution would also reject, is conflated here with the bare field
name — both carry the equality lookup; no claim distinguishes them.) -/
def _resolve_f_expression (sch : Schema) (f : FExpr) : Except PyErr String :=
  if f.lookups = ["exact"] then
    match sch.resolveField f.parts with
    | none => .error .fieldError
    | some attname =>
      .ok (pyJoin "." (sch.dbTable :: (f.parts.dropLast ++ [attname])))
  else
    .error .fieldError

/-- `HierarchyRelationsFilter._as_sql_reference`: the `if/elif` chain
over `hasattr(ref, "id")`, `isinstance(ref, string_types) or
isinstance(ref, int)`, and `isinstance(ref, F)`, with the final
`raise Exception("Not a valid reference: ...")` branch. -/
def _as_sql_reference (sch : Schema) (ref : Ref) : Except PyErr SQLRef :=
  match ref with
  | .entity i => .ok (.intRef i)
  | .strLit s => .ok (.strRef s)
  | .intLit n => .ok (.intRef n)
  | .fexpr f => (_resolve_f_expression sch f).map SQLRef.strRef
  | .other => .error .invalidReferenceKind

/-- Python truthiness of a `Ref` value: `None` is handled at the
`Option` level, the empty string and the integer 0 are falsy, and model
instances and `F` expressions are always truthy. -/
def Ref.truthy : Ref → Bool
  | .strLit s => !(s == "")
  | .intLit n => !(n == 0)
  | .entity _ => true
  | .fexpr _ => true
  | .other => true

/-- Truthiness of an optional parameter (`None` is falsy). -/
def truthyO : Option Ref → Bool
  | none => false
  | some r => r.truthy

/-- The value passed as `role_kind`: either a Python list of strings or
any other single value (modelled by `Ref`). -/
inductive RKArg where
  | ofRef (r : Ref)
  | ofList (l : List String)
deriving DecidableEq, Repr

/-- Python truthiness of a `role_kind` value (an empty list is falsy). -/
def RKArg.truthy : RKArg → Bool
  | .ofRef r => r.truthy
  | .ofList l => !l.isEmpty

/-- Truthiness of the optional `role_kind` parameter. -/
def truthyRK : Option RKArg → Bool
  | none => false
  | some k => k.truthy

/-- The `role_kind` normalisation inside `filter_by_hierarchy`:
`if isinstance(role_kind, string_types): role_kind = [role_kind]`,
followed by `"','".join(role_kind)`.  A single string is wrapped into a
one-element list; a list of strings is used as is; any other value
(an int, a model instance, an `F` expression, ...) makes `str.join`
raise `TypeError` — note this branch never consults
`_as_sql_reference`. -/
def role_kind_list : RKArg → Except PyErr (List String)
  | .ofRef (.strLit s) => .ok [s]
  | .ofList l => .ok l
  | .ofRef _ => .error .pyTypeError

/-- `"('{kind_list}')".format(kind_list="','".join(role_kind))`. -/
def kinds_string (l : List String) : String :=
  "('" ++ pyJoin "','" l ++ "')"

example : sqlRefStr (.intRef 7) = "7" := rfl
example : kinds_string ["ADMIN", "COACH"] = "('ADMIN','COACH')" := rfl
example : pyJoin "." ["t", "a", "b"] = "t.a.b" := rfl

/-- A Django queryset, modelled by its composition structure: the base
queryset held by the filter instance, the chain of `.extra(...)` calls
(each node records the table-alias declarations and the raw where
clauses it attached), and `|` union nodes. -/
inductive Queryable where
  | baseQ
  | extra (q : Queryable) (tables : List String) (whereClauses : List String)
  | orQ (a b : Queryable)
deriving DecidableEq, Repr

/-- `HierarchyRelationsFilter._add_extras`: builds the `extras` kwargs
(the table templates already interpolated with the physical table
names — see `TableNames` below) and calls `queryset.extra(**extras)`,
which returns a new queryset with those attached.  An absent `tables`
or `where` kwarg is represented by the empty list. -/
def _add_extras (queryset : Queryable) (tables : List String) (wh : List String) : Queryable :=
  Queryable.extra queryset tables wh

/-- The table-name context built by `HierarchyRelationsFilter.__init__`
from the `_meta.db_table` of the four auth models. -/
structure TableNames where
  role_table : String
  collection_table : String
  membership_table : String
  facilityuser_table : String
deriving DecidableEq, Repr

/-- `_role_extra["tables"]`, with the `str.format` interpolation of the
table-name context already applied. -/
def _role_extra_tables (t : TableNames) : List String :=
  ["\"" ++ t.facilityuser_table ++ "\" AS \"source_user\"",
   "\"" ++ t.role_table ++ "\" AS \"role\""]

/-- `_role_extra["where"]`. -/
def _role_extra_where : List String :=
  ["role.user_id = source_user.id",
   "role.collection_id = ancestor_collection.id"]

/-- `_collection_extra["tables"]`, with the `str.format` interpolation
applied. -/
def _collection_extra_tables (t : TableNames) : List String :=
  ["\"" ++ t.collection_table ++ "\" AS \"ancestor_collection\"",
   "\"" ++ t.collection_table ++ "\" AS \"descendant_collection\""]

/-- `_collection_extra["where"]`: the nested-set containment
condition. -/
def _collection_extra_where : List String :=
  ["descendant_collection.lft BETWEEN ancestor_collection.lft AND ancestor_collection.rght"]

/-- `_membership_extra["tables"]`, with the `str.format` interpolation
applied. -/
def _membership_extra_tables (t : TableNames) : List String :=
  ["\"" ++ t.facilityuser_table ++ "\" AS \"target_user\"",
   "\"" ++ t.membership_table ++ "\" AS \"membership\""]

/-- `_membership_extra["where"]`. -/
def _membership_extra_where : List String :=
  ["membership.user_id = target_user.id",
   "membership.collection_id = descendant_collection.id"]

/-- Modelled from the spec: the `FACILITY` member of the enumerated
collection kinds (`kolibri.auth.constants.collection_kinds`, a module
not included under `src/`).  The spec fixes only that it is one closed,
statically known enumerated value; its concrete spelling is irrelevant
to every claim below. -/
def collection_kinds_FACILITY : String := "facility"

/-- The inline where clause built for the `member_via_facility` branch
of `filter_by_hierarchy`, with the `str.format` interpolation of
`collection_kinds.FACILITY` already applied. -/
def member_via_facility_where : List String :=
  ["ancestor_collection.kind = '" ++ collection_kinds_FACILITY ++ "'",
   "ancestor_collection.dataset_id = target_user.dataset_id"]

/-- Step 1(a) of `filter_by_hierarchy`: `if target_user:` build the two
membership paths from the *current* queryset and union them with `|` —
`member_via_facility | member_via_hierarchy`. -/
def step_target_union (t : TableNames) (queryset : Queryable) (target_user : Option Ref) : Queryable :=
  if truthyO target_user then
    Queryable.orQ
      (_add_extras queryset [] member_via_facility_where)
      (_add_extras queryset (_membership_extra_tables t) _membership_extra_where)
  else queryset

/-- Step 1(b) of `filter_by_hierarchy`: unconditionally attach
`_collection_extra`. -/
def step_collection (t : TableNames) (queryset : Queryable) : Queryable :=
  _add_extras queryset (_collection_extra_tables t) _collection_extra_where

/-- Step 1(c) of `filter_by_hierarchy`: `if source_user or role_kind:`
attach `_role_extra`. -/
def step_role_tables (t : TableNames) (queryset : Queryable)
    (source_user : Option Ref) (role_kind : Option RKArg) : Queryable :=
  if truthyO source_user || truthyRK role_kind then
    _add_extras queryset (_role_extra_tables t) _role_extra_where
  else queryset

/-- One step-2 block of `filter_by_hierarchy` for a reference-valued
parameter: `if <param>:` resolve it with `_as_sql_reference` and attach
`'<alias>.id = {id}'.format(id=...)` as a where clause.  `col` is the
format template's fixed prefix, e.g. `"source_user.id = "`. -/
def step_ref_constraint (sch : Schema) (col : String) (queryset : Queryable)
    (p : Option Ref) : Except PyErr Queryable :=
  match p with
  | some r =>
    if r.truthy then
      (_as_sql_reference sch r).bind fun v =>
        .ok (_add_extras queryset [] [col ++ sqlRefStr v])
    else .ok queryset
  | none => .ok queryset

/-- The `role_kind` step-2 block of `filter_by_hierarchy`:
`if role_kind:` wrap a single string into a list, render the kinds into
`"('{kind_list}')"` and attach `role.kind IN (...)` as a where
clause. -/
def step_role_kind (queryset : Queryable) (role_kind : Option RKArg) : Except PyErr Queryable :=
  match role_kind with
  | some rk =>
    if rk.truthy then
      (role_kind_list rk).bind fun kinds =>
        .ok (_add_extras queryset [] ["role.kind IN " ++ kinds_string kinds])
    else .ok queryset
  | none => .ok queryset

/-- `HierarchyRelationsFilter.filter_by_hierarchy`, as the sequence of
its source blocks: step 1(a) (the target-user membership union), step
1(b) (the unconditional collection containment join), step 1(c) (the
source-user/role join), then the five step-2 value-constraint blocks in
source order (`source_user`, `role_kind`, `ancestor_collection`,
`descendant_collection`, `target_user`).  A raised Python exception is
an `Except.error`; it aborts the whole call. -/
def filter_by_hierarchy (t : TableNames) (sch : Schema) (base : Queryable)
    (source_user : Option Ref) (role_kind : Option RKArg)
    (ancestor_collection : Option Ref) (descendant_collection : Option Ref)
    (target_user : Option Ref) : Except PyErr Queryable :=
  let queryset := base
  let queryset := step_target_union t queryset target_user
  let queryset := step_collection t queryset
  let queryset := step_role_tables t queryset source_user role_kind
  (step_ref_constraint sch "source_user.id = " queryset source_user).bind fun queryset =>
  (step_role_kind queryset role_kind).bind fun queryset =>
  (step_ref_constraint sch "ancestor_collection.id = " queryset ancestor_collection).bind fun queryset =>
  (step_ref_constraint sch "descendant_collection.id = " queryset descendant_collection).bind fun queryset =>
  step_ref_constraint sch "target_user.id = " queryset target_user

/-- A Python model class (`models.Model` subclass) handed to the
constructor. -/
structure PyModelClass where
  name : String
deriving DecidableEq, Repr

/-- The possible arguments to `HierarchyRelationsFilter.__init__`:
a class that subclasses `models.Model`, a class that does not, or a
non-class value such as an already-constructed `QuerySet` instance
(the usage the class docstring describes). -/
inductive InitArg where
  | modelClass (m : PyModelClass)
  | otherClass (name : String)
  | instanceArg (q : Queryable)
deriving DecidableEq, Repr

/-- What `__init__` stores in `self.queryset`. -/
inductive StoredQueryset where
  | allObjects (m : PyModelClass)
  | asIs (name : String)
deriving DecidableEq, Repr

/-- Python's `issubclass(arg, models.Model)`: `True` for a `Model`
subclass, `False` for any other class, and a raised `TypeError`
("issubclass() arg 1 must be a class") for a non-class argument. -/
def py_issubclass_Model : InitArg → Except PyErr Bool
  | .modelClass _ => .ok true
  | .otherClass _ => .ok false
  | .instanceArg _ => .error .pyTypeError

/-- `HierarchyRelationsFilter.__init__`: evaluates
`issubclass(queryset, models.Model)` first (which may raise), converts
a `Model` subclass into `Model.objects.all()`, and stores any other
argument unchanged.  (The branches marked unreachable cannot occur:
`issubclass` returns `true` only for `modelClass` and has already
raised for `instanceArg`.) -/
def hierarchy_relations_filter_init (arg : InitArg) : Except PyErr StoredQueryset :=
  (py_issubclass_Model arg).bind fun isModel =>
    if isModel then
      match arg with
      | .modelClass m => .ok (.allObjects m)
      | .otherClass c => .ok (.asIs c)      -- unreachable
      | .instanceArg _ => .ok (.asIs "")    -- unreachable
    else
      match arg with
      | .modelClass m => .ok (.allObjects m) -- unreachable
      | .otherClass c => .ok (.asIs c)
      | .instanceArg _ => .ok (.asIs "")     -- unreachable

/-- All raw where clauses attached anywhere in a queryable, in
attachment order. -/
def Queryable.allWheres : Queryable → List String
  | .baseQ => []
  | .extra q _ ws => q.allWheres ++ ws
  | .orQ a b => a.allWheres ++ b.allWheres

/-- Whether a queryable contains a `|` union node anywhere. -/
def Queryable.hasOr : Queryable → Bool
  | .baseQ => false
  | .extra q _ _ => q.hasOr
  | .orQ _ _ => true

/-- The predicate a queryable denotes, relative to an interpretation
`I` of the raw where-clause strings: the base queryset selects a row
iff `true` (no added condition), an `extra` node conjoins its where
clauses (table aliasing introduces no condition of its own), and a `|`
node disjoins its two sides. -/
def Queryable.eval (I : String → Bool) : Queryable → Bool
  | .baseQ => true
  | .extra q _ ws => q.eval I && ws.all I
  | .orQ a b => a.eval I || b.eval I

/-- `q'` is `q` with zero or more further `extra` nodes attached on top
(and nothing else: in particular no further `|` union). -/
inductive ExtendsExtra : Queryable → Queryable → Prop where
  | refl (q : Queryable) : ExtendsExtra q q
  | step (q q' : Queryable) (ts ws : List String) :
      ExtendsExtra q q' → ExtendsExtra q (.extra q' ts ws)

theorem ExtendsExtra.trans {a b c : Queryable}
    (h1 : ExtendsExtra a b) (h2 : ExtendsExtra b c) : ExtendsExtra a c := by
  induction h2 with
  | refl => exact h1
  | step q' ts ws h ih => exact .step _ _ _ _ ih

/-- Attach a list of where-clause groups, each as one `extra` node with
no tables, in order. -/
def applyWheres (q : Queryable) (cs : List (List String)) : Queryable :=
  cs.foldl (fun acc ws => Queryable.extra acc [] ws) q

/-- The phase-1 part of `filter_by_hierarchy`: steps 1(a), 1(b), 1(c)
in source order. -/
def phase1 (t : TableNames) (base : Queryable) (source_user : Option Ref)
    (role_kind : Option RKArg) (target_user : Option Ref) : Queryable :=
  step_role_tables t (step_collection t (step_target_union t base target_user)) source_user role_kind

/-- The where-clause group a step-2 reference block contributes: none
when the parameter is absent or falsy, otherwise the single resolved
equality clause. -/
def clause_of (sch : Schema) (col : String) (p : Option Ref) :
    Except PyErr (List (List String)) :=
  match p with
  | some r =>
    if r.truthy then
      (_as_sql_reference sch r).bind fun v => .ok [[col ++ sqlRefStr v]]
    else .ok []
  | none => .ok []

/-- The where-clause group the `role_kind` step-2 block contributes. -/
def clause_of_rk (role_kind : Option RKArg) : Except PyErr (List (List String)) :=
  match role_kind with
  | some rk =>
    if rk.truthy then
      (role_kind_list rk).bind fun kinds => .ok [["role.kind IN " ++ kinds_string kinds]]
    else .ok []
  | none => .ok []

/-- The five phase-2 where-clause groups, in source order. -/
def phase2_clauses (sch : Schema) (source_user : Option Ref) (role_kind : Option RKArg)
    (ancestor_collection : Option Ref) (descendant_collection : Option Ref)
    (target_user : Option Ref) : Except PyErr (List (List String)) :=
  (clause_of sch "source_user.id = " source_user).bind fun c1 =>
  (clause_of_rk role_kind).bind fun c2 =>
  (clause_of sch "ancestor_collection.id = " ancestor_collection).bind fun c3 =>
  (clause_of sch "descendant_collection.id = " descendant_collection).bind fun c4 =>
  (clause_of sch "target_user.id = " target_user).bind fun c5 =>
  .ok (c1 ++ c2 ++ c3 ++ c4 ++ c5)

theorem exceptBind_eq_ok {ε α β : Type} {x : Except ε α} {f : α → Except ε β} {b : β} :
    x.bind f = Except.ok b ↔ ∃ a, x = Except.ok a ∧ f a = Except.ok b := by
  cases x <;> simp [Except.bind]

theorem applyWheres_cons (q : Queryable) (ws : List String) (cs : List (List String)) :
    applyWheres q (ws :: cs) = applyWheres (Queryable.extra q [] ws) cs := rfl

theorem applyWheres_append (q : Queryable) (cs cs2 : List (List String)) :
    applyWheres q (cs ++ cs2) = applyWheres (applyWheres q cs) cs2 := by
  simp [applyWheres, List.foldl_append]

theorem eval_applyWheres (I : String → Bool) (cs : List (List String)) (q : Queryable) :
    (applyWheres q cs).eval I = (q.eval I && cs.all (fun ws => ws.all I)) := by
  induction cs generalizing q with
  | nil => simp [applyWheres, Queryable.eval]
  | cons ws cs ih =>
    rw [applyWheres_cons, ih]
    simp [Queryable.eval, Bool.and_assoc]

theorem perm_all_eq {α : Type} (p : α → Bool) {l l2 : List α} (h : l.Perm l2) :
    l.all p = l2.all p := by
  induction h with
  | nil => rfl
  | cons a h ih => simp [List.all_cons, ih]
  | swap a b l => simp [List.all_cons, Bool.and_left_comm]
  | trans h1 h2 ih1 ih2 => rw [ih1, ih2]

theorem step_ref_constraint_eq_clause (sch : Schema) (col : String) (q : Queryable)
    (p : Option Ref) :
    step_ref_constraint sch col q p = (clause_of sch col p).map (applyWheres q) := by
  cases p with
  | none => rfl
  | some r =>
    cases h : r.truthy <;> cases hr : _as_sql_reference sch r <;>
      simp [step_ref_constraint, clause_of, h, hr, Except.bind, Except.map,
        applyWheres, _add_extras]

theorem step_role_kind_eq_clause (q : Queryable) (rk : Option RKArg) :
    step_role_kind q rk = (clause_of_rk rk).map (applyWheres q) := by
  cases rk with
  | none => rfl
  | some k =>
    cases h : k.truthy <;> cases hk : role_kind_list k <;>
      simp [step_role_kind, clause_of_rk, h, hk, Except.bind, Except.map,
        applyWheres, _add_extras]

theorem filter_by_hierarchy_eq_phases (t : TableNames) (sch : Schema) (base : Queryable)
    (su : Option Ref) (rk : Option RKArg) (ac dc tu : Option Ref) :
    filter_by_hierarchy t sch base su rk ac dc tu =
      (phase2_clauses sch su rk ac dc tu).map (applyWheres (phase1 t base su rk tu)) := by
  unfold filter_by_hierarchy phase2_clauses phase1
  cases h1 : clause_of sch "source_user.id = " su <;>
    cases h2 : clause_of_rk rk <;>
      cases h3 : clause_of sch "ancestor_collection.id = " ac <;>
        cases h4 : clause_of sch "descendant_collection.id = " dc <;>
          cases h5 : clause_of sch "target_user.id = " tu <;>
            simp [step_ref_constraint_eq_clause, step_role_kind_eq_clause,
              h1, h2, h3, h4, h5, Except.bind, Except.map, applyWheres_append]

theorem filter_by_hierarchy_ok_iff {t : TableNames} {sch : Schema} {base : Queryable}
    {su : Option Ref} {rk : Option RKArg} {ac dc tu : Option Ref} {res : Queryable} :
    filter_by_hierarchy t sch base su rk ac dc tu = .ok res ↔
    ∃ q4 q5 q6 q7,
      step_ref_constraint sch "source_user.id = " (phase1 t base su rk tu) su = .ok q4 ∧
      step_role_kind q4 rk = .ok q5 ∧
      step_ref_constraint sch "ancestor_collection.id = " q5 ac = .ok q6 ∧
      step_ref_constraint sch "descendant_collection.id = " q6 dc = .ok q7 ∧
      step_ref_constraint sch "target_user.id = " q7 tu = .ok res := by
  unfold filter_by_hierarchy phase1
  simp only [exceptBind_eq_ok]
  tauto

theorem step_ref_constraint_extends {sch : Schema} {col : String} {q : Queryable}
    {p : Option Ref} {q' : Queryable}
    (h : step_ref_constraint sch col q p = .ok q') : ExtendsExtra q q' := by
  cases p with
  | none =>
    simp [step_ref_constraint] at h
    subst h
    exact .refl _
  | some r =>
    cases ht : r.truthy with
    | false =>
      simp [step_ref_constraint, ht] at h
      subst h
      exact .refl _
    | true =>
      simp [step_ref_constraint, ht, exceptBind_eq_ok] at h
      obtain ⟨v, _, hq⟩ := h
      subst hq
      exact .step _ _ _ _ (.refl _)

theorem step_role_kind_extends {q : Queryable} {rk : Option RKArg} {q' : Queryable}
    (h : step_role_kind q rk = .ok q') : ExtendsExtra q q' := by
  cases rk with
  | none =>
    simp [step_role_kind] at h
    subst h
    exact .refl _
  | some k =>
    cases ht : k.truthy with
    | false =>
      simp [step_role_kind, ht] at h
      subst h
      exact .refl _
    | true =>
      simp [step_role_kind, ht, exceptBind_eq_ok] at h
      obtain ⟨v, _, hq⟩ := h
      subst hq
      exact .step _ _ _ _ (.refl _)

theorem step_ref_constraint_adds {sch : Schema} {col : String} {q : Queryable}
    {r : Ref} {q' : Queryable} (ht : r.truthy = true)
    (h : step_ref_constraint sch col q (some r) = .ok q') :
    ∃ v, _as_sql_reference sch r = .ok v ∧
      q' = Queryable.extra q [] [col ++ sqlRefStr v] := by
  simp [step_ref_constraint, ht, exceptBind_eq_ok, _add_extras] at h
  obtain ⟨v, hv, hq⟩ := h
  exact ⟨v, hv, hq.symm⟩

theorem step_role_kind_adds {q : Queryable} {k : RKArg} {q' : Queryable}
    (ht : k.truthy = true) (h : step_role_kind q (some k) = .ok q') :
    ∃ kinds, role_kind_list k = .ok kinds ∧
      q' = Queryable.extra q [] ["role.kind IN " ++ kinds_string kinds] := by
  simp [step_role_kind, ht, exceptBind_eq_ok, _add_extras] at h
  obtain ⟨kinds, hk, hq⟩ := h
  exact ⟨kinds, hk, hq.symm⟩

theorem ExtendsExtra.allWheres_mem {q q' : Queryable} (h : ExtendsExtra q q')
    {s : String} (hs : s ∈ q.allWheres) : s ∈ q'.allWheres := by
  induction h with
  | refl => exact hs
  | step q2 ts ws h ih =>
    simp only [Queryable.allWheres, List.mem_append]
    exact Or.inl ih

/-- Concrete table-name context used by the witnesses below. -/
def t0 : TableNames :=
  ⟨"kolibriauth_role", "kolibriauth_collection", "kolibriauth_membership",
   "kolibriauth_facilityuser"⟩

/-- Concrete base-model schema used by the witnesses below: the base
table is the facility-user table and only the field path `["id"]`
resolves (to attname `id`). -/
def sch0 : Schema :=
  ⟨"kolibriauth_facilityuser", fun parts => if parts = ["id"] then some "id" else none⟩

/-- Claim C2: every call of `filter_by_hierarchy`, whatever the five
parameters, attaches the ancestor/descendant collection aliases and the
single containment condition
`descendant_collection.lft BETWEEN ancestor_collection.lft AND
ancestor_collection.rght` to the result (the result extends such a node
by further `extra` nodes only); and in the all-`None` case the result
is exactly the base queryable with this one containment join attached
and nothing else. -/
theorem C2_containment_always_attached (t : TableNames) (sch : Schema) (base : Queryable)
    (su : Option Ref) (rk : Option RKArg) (ac dc tu : Option Ref) (res : Queryable)
    (h : filter_by_hierarchy t sch base su rk ac dc tu = .ok res) :
    (∃ q, ExtendsExtra
        (Queryable.extra q (_collection_extra_tables t) _collection_extra_where) res) ∧
    filter_by_hierarchy t sch base none none none none none =
      .ok (Queryable.extra base (_collection_extra_tables t) _collection_extra_where) := by
  constructor
  · rw [filter_by_hierarchy_ok_iff] at h
    obtain ⟨q4, q5, q6, q7, h1, h2, h3, h4, h5⟩ := h
    refine ⟨step_target_union t base tu, ?_⟩
    have e0 : ExtendsExtra
        (Queryable.extra (step_target_union t base tu) (_collection_extra_tables t)
          _collection_extra_where)
        (phase1 t base su rk tu) := by
      unfold phase1 step_role_tables step_collection _add_extras
      cases hc : (truthyO su || truthyRK rk) with
      | true => simp only [hc, if_true]; exact .step _ _ _ _ (.refl _)
      | false => simp only [hc, Bool.false_eq_true, if_false]; exact .refl _
    exact e0.trans ((step_ref_constraint_extends h1).trans
      ((step_role_kind_extends h2).trans ((step_ref_constraint_extends h3).trans
        ((step_ref_constraint_extends h4).trans (step_ref_constraint_extends h5)))))
  · rfl

theorem C2_witness :
    (∃ q, ExtendsExtra
        (Queryable.extra q (_collection_extra_tables t0) _collection_extra_where)
        (Queryable.extra .baseQ (_collection_extra_tables t0) _collection_extra_where)) ∧
    filter_by_hierarchy t0 sch0 .baseQ none none none none none =
      .ok (Queryable.extra .baseQ (_collection_extra_tables t0) _collection_extra_where) :=
  C2_containment_always_attached t0 sch0 .baseQ none none none none none
    (Queryable.extra .baseQ (_collection_extra_tables t0) _collection_extra_where) rfl

/-- Claim C4 counterexample: at the concrete qualified reference
`F("id__gt")` (lookups `["gt"]`, field path `["id"]` — a path that is
valid on its own, as `F("id")` shows elsewhere), resolution fails with
`FieldError` from the full-name field resolution, not with
`UnsupportedLookupQualifier` as the claim states. -/
theorem C4_counterexample :
    _resolve_f_expression sch0 ⟨["gt"], ["id"]⟩ = .error .fieldError ∧
    PyErr.fieldError ≠ PyErr.unsupportedLookupQualifier :=
  ⟨rfl, by decide⟩

/-- Claim C4 (amended): a deferred field reference whose lookup
carries any qualifier other than exact equality always fails — it
never resolves to a value, so it never silently degrades to an
equality condition — but the error is `FieldError`, raised by the
full-name field resolution (`resolve_expression`) which rejects the
qualifier word itself, not `UnsupportedLookupQualifier`: the assert is
unreachable, no input at all makes `_resolve_f_expression` fail with
`UnsupportedLookupQualifier`. -/
theorem C4_qualifier_always_fails (sch : Schema) (f : FExpr)
    (hneq : f.lookups ≠ ["exact"]) :
    _resolve_f_expression sch f = .error .fieldError ∧
    (∀ s, _resolve_f_expression sch f ≠ .ok s) ∧
    (∀ f2, _resolve_f_expression sch f2 ≠ .error .unsupportedLookupQualifier) := by
  have h1 : _resolve_f_expression sch f = .error .fieldError := by
    simp [_resolve_f_expression, hneq]
  refine ⟨h1, ?_, ?_⟩
  · intro s hok
    rw [h1] at hok
    exact Except.noConfusion hok
  · intro f2 habs
    by_cases hl : f2.lookups = ["exact"]
    · cases hres : sch.resolveField f2.parts with
      | none => simp [_resolve_f_expression, hl, hres] at habs
      | some a => simp [_resolve_f_expression, hl, hres] at habs
    · simp [_resolve_f_expression, hl] at habs

theorem C4_witness :
    (FExpr.mk ["gt"] ["id"]).lookups ≠ ["exact"] ∧
    _resolve_f_expression sch0 ⟨["gt"], ["id"]⟩ = .error .fieldError :=
  ⟨by decide, (C4_qualifier_always_fails sch0 ⟨["gt"], ["id"]⟩ (by decide)).1⟩

theorem pyJoin_cons_of_ne_nil (sep a : String) {l : List String} (h : l ≠ []) :
    pyJoin sep (a :: l) = a ++ sep ++ pyJoin sep l := by
  cases l with
  | nil => exact absurd rfl h
  | cons b t => rfl

/-- Claim C5: `_as_sql_reference` is a case analysis over exactly the
three accepted variants — an entity handle resolves to its identifier,
a string or integer literal passes through unchanged, a deferred field
reference resolves through `_resolve_f_expression` to a fully
qualified reference anchored at the base table (`dbTable.column`) —
and every other input fails with `InvalidReferenceKind`. -/
theorem C5_reference_resolver_cases (sch : Schema) :
    (∀ i, _as_sql_reference sch (.entity i) = .ok (.intRef i)) ∧
    (∀ s, _as_sql_reference sch (.strLit s) = .ok (.strRef s)) ∧
    (∀ n, _as_sql_reference sch (.intLit n) = .ok (.intRef n)) ∧
    (∀ f, _as_sql_reference sch (.fexpr f) = (_resolve_f_expression sch f).map SQLRef.strRef) ∧
    (∀ f v, _as_sql_reference sch (.fexpr f) = .ok v →
      ∃ rest, v = .strRef (sch.dbTable ++ "." ++ rest)) ∧
    _as_sql_reference sch .other = .error .invalidReferenceKind := by
  refine ⟨fun i => rfl, fun s => rfl, fun n => rfl, fun f => rfl, ?_, rfl⟩
  intro f v h
  have h' : (_resolve_f_expression sch f).map SQLRef.strRef = .ok v := h
  cases hr : _resolve_f_expression sch f with
  | error e => rw [hr] at h'; exact Except.noConfusion h'
  | ok s =>
    rw [hr] at h'
    simp only [Except.map, Except.ok.injEq] at h'
    subst h'
    by_cases hl : f.lookups = ["exact"]
    · cases hres : sch.resolveField f.parts with
      | none => simp [_resolve_f_expression, hl, hres] at hr
      | some attname =>
        have hs : s = pyJoin "." (sch.dbTable :: (f.parts.dropLast ++ [attname])) := by
          simp [_resolve_f_expression, hl, hres] at hr
          exact hr.symm
        refine ⟨pyJoin "." (f.parts.dropLast ++ [attname]), ?_⟩
        rw [hs, pyJoin_cons_of_ne_nil "." sch.dbTable (by simp)]
    · simp [_resolve_f_expression, hl] at hr

theorem C5_witness :
    _as_sql_reference sch0 (.entity 5) = .ok (.intRef 5) ∧
    _as_sql_reference sch0 (.strLit "abc") = .ok (.strRef "abc") ∧
    _as_sql_reference sch0 .other = .error .invalidReferenceKind :=
  ⟨(C5_reference_resolver_cases sch0).1 5,
   (C5_reference_resolver_cases sch0).2.1 "abc",
   (C5_reference_resolver_cases sch0).2.2.2.2.2⟩

theorem step_ref_constraint_falsy {sch : Schema} {col : String} {q : Queryable} {r : Ref}
    (hr : r.truthy = false) :
    step_ref_constraint sch col q (some r) = step_ref_constraint sch col q none := by
  simp [step_ref_constraint, hr]

theorem step_role_kind_falsy {q : Queryable} {k : RKArg} (hk : k.truthy = false) :
    step_role_kind q (some k) = step_role_kind q none := by
  simp [step_role_kind, hk]

theorem step_target_union_falsy {t : TableNames} {q : Queryable} {r : Ref}
    (hr : r.truthy = false) :
    step_target_union t q (some r) = step_target_union t q none := by
  simp [step_target_union, truthyO, hr]

theorem step_role_tables_falsy_su {t : TableNames} {q : Queryable} {r : Ref}
    {rk : Option RKArg} (hr : r.truthy = false) :
    step_role_tables t q (some r) rk = step_role_tables t q none rk := by
  simp [step_role_tables, truthyO, hr]

theorem step_role_tables_falsy_rk {t : TableNames} {q : Queryable} {su : Option Ref}
    {k : RKArg} (hk : k.truthy = false) :
    step_role_tables t q su (some k) = step_role_tables t q su none := by
  simp [step_role_tables, truthyRK, hk]

/-- Claim C9 (implicit): parameter presence is decided by Python
truthiness, not by a `None` check — supplying any falsy value
(`0`, `""`, `[]`, ...) in any of the five parameter positions produces
exactly the same result as omitting that parameter: both its structural
join and its value constraint are silently skipped. -/
theorem C9_falsy_means_absent (t : TableNames) (sch : Schema) (base : Queryable)
    (su : Option Ref) (rk : Option RKArg) (ac dc tu : Option Ref) (r : Ref) (k : RKArg)
    (hr : r.truthy = false) (hk : k.truthy = false) :
    filter_by_hierarchy t sch base (some r) rk ac dc tu =
      filter_by_hierarchy t sch base none rk ac dc tu ∧
    filter_by_hierarchy t sch base su (some k) ac dc tu =
      filter_by_hierarchy t sch base su none ac dc tu ∧
    filter_by_hierarchy t sch base su rk (some r) dc tu =
      filter_by_hierarchy t sch base su rk none dc tu ∧
    filter_by_hierarchy t sch base su rk ac (some r) tu =
      filter_by_hierarchy t sch base su rk ac none tu ∧
    filter_by_hierarchy t sch base su rk ac dc (some r) =
      filter_by_hierarchy t sch base su rk ac dc none := by
  refine ⟨?_, ?_, ?_, ?_, ?_⟩ <;>
    simp only [filter_by_hierarchy, step_target_union_falsy hr,
      step_role_tables_falsy_su hr, step_role_tables_falsy_rk hk,
      step_role_kind_falsy hk, step_ref_constraint_falsy hr]

theorem C9_witness :
    filter_by_hierarchy t0 sch0 .baseQ (some (.intLit 0)) none none none none =
      filter_by_hierarchy t0 sch0 .baseQ none none none none none ∧
    filter_by_hierarchy t0 sch0 .baseQ none (some (.ofList [])) none none none =
      filter_by_hierarchy t0 sch0 .baseQ none none none none none ∧
    filter_by_hierarchy t0 sch0 .baseQ none none (some (.intLit 0)) none none =
      filter_by_hierarchy t0 sch0 .baseQ none none none none none ∧
    filter_by_hierarchy t0 sch0 .baseQ none none none (some (.intLit 0)) none =
      filter_by_hierarchy t0 sch0 .baseQ none none none none none ∧
    filter_by_hierarchy t0 sch0 .baseQ none none none none (some (.intLit 0)) =
      filter_by_hierarchy t0 sch0 .baseQ none none none none none :=
  C9_falsy_means_absent t0 sch0 .baseQ none none none none none
    (.intLit 0) (.ofList []) rfl rfl

/-- Claim C10 (implicit): `HierarchyRelationsFilter.__init__` applies
`issubclass` directly to its argument, so any non-class argument —
including an already-constructed `QuerySet` instance, the usage the
class docstring documents — raises `TypeError`; construction succeeds
only for class arguments, converting a `Model` subclass to
`Model.objects.all()` and storing any other class as-is. -/
theorem C10_init_issubclass (q : Queryable) (m : PyModelClass) (c : String) :
    hierarchy_relations_filter_init (.instanceArg q) = .error .pyTypeError ∧
    hierarchy_relations_filter_init (.modelClass m) = .ok (.allObjects m) ∧
    hierarchy_relations_filter_init (.otherClass c) = .ok (.asIs c) :=
  ⟨rfl, rfl, rfl⟩

/-- Claim C8: the predicate-assembly primitive is pure and composition
is atomic.  `_add_extras` always returns a queryable distinct from (and
strictly containing) its input, so the stored base queryset is never
mutated; and `filter_by_hierarchy` returns a fully composed queryable
only when every supplied constraint resolved — whenever it returns
`.ok`, every supplied (truthy) reference parameter resolved
successfully and the supplied `role_kind` normalised successfully, so a
failing resolution can never leave a partially composed queryable in
the caller's hands (an error is raised instead and the instance state
is untouched, the method only rebinding its local variable). -/
theorem C8_pure_and_atomic (t : TableNames) (sch : Schema) (base : Queryable)
    (su : Option Ref) (rk : Option RKArg) (ac dc tu : Option Ref) (res : Queryable)
    (q2 : Queryable) (ts ws : List String)
    (h : filter_by_hierarchy t sch base su rk ac dc tu = .ok res) :
    _add_extras q2 ts ws ≠ q2 ∧
    (∀ r, (su = some r ∨ ac = some r ∨ dc = some r ∨ tu = some r) →
      r.truthy = true → ∃ v, _as_sql_reference sch r = .ok v) ∧
    (∀ k, rk = some k → k.truthy = true → ∃ kinds, role_kind_list k = .ok kinds) := by
  rw [filter_by_hierarchy_ok_iff] at h
  obtain ⟨q4, q5, q6, q7, h1, h2, h3, h4, h5⟩ := h
  refine ⟨?_, ?_, ?_⟩
  · intro heq
    have hsz := congrArg sizeOf heq
    simp [_add_extras] at hsz
    omega
  · intro r hpos htr
    rcases hpos with hsu | hac | hdc | htu2
    · subst hsu
      obtain ⟨v, hv, _⟩ := step_ref_constraint_adds htr h1
      exact ⟨v, hv⟩
    · subst hac
      obtain ⟨v, hv, _⟩ := step_ref_constraint_adds htr h3
      exact ⟨v, hv⟩
    · subst hdc
      obtain ⟨v, hv, _⟩ := step_ref_constraint_adds htr h4
      exact ⟨v, hv⟩
    · subst htu2
      obtain ⟨v, hv, _⟩ := step_ref_constraint_adds htr h5
      exact ⟨v, hv⟩
  · intro k hk htr
    subst hk
    obtain ⟨kinds, hkk, _⟩ := step_role_kind_adds htr h2
    exact ⟨kinds, hkk⟩

theorem C8_witness :
    _add_extras .baseQ [] [] ≠ Queryable.baseQ ∧
    (∀ r, ((none : Option Ref) = some r ∨ (none : Option Ref) = some r ∨
        (none : Option Ref) = some r ∨ (none : Option Ref) = some r) →
      r.truthy = true → ∃ v, _as_sql_reference sch0 r = .ok v) ∧
    (∀ k, (none : Option RKArg) = some k → k.truthy = true →
      ∃ kinds, role_kind_list k = .ok kinds) :=
  C8_pure_and_atomic t0 sch0 .baseQ none none none none none
    (Queryable.extra .baseQ (_collection_extra_tables t0) _collection_extra_where)
    .baseQ [] [] rfl

/-- Claim C1 (amended): for every call with a *truthy* `target_user`,
the result is built as the queryset-level union (`|`) of exactly two
queryables derived from the base — Path A attaching only the where
conditions `ancestor_collection.kind = FACILITY` and
`ancestor_collection.dataset_id = target_user.dataset_id` (no
membership join), Path B attaching the membership/target-user join
tables with `membership.user_id = target_user.id` and
`membership.collection_id = descendant_collection.id` — and this union
is formed before the shared ancestor/descendant containment join or any
other shared join is attached: the result extends the union node
(capped by the containment join) by further `extra` nodes only. -/
theorem C1_union_before_shared_joins (t : TableNames) (sch : Schema) (base : Queryable)
    (su : Option Ref) (rk : Option RKArg) (ac dc tu : Option Ref) (res : Queryable)
    (htu : truthyO tu = true)
    (h : filter_by_hierarchy t sch base su rk ac dc tu = .ok res) :
    ExtendsExtra
      (Queryable.extra
        (Queryable.orQ
          (Queryable.extra base [] member_via_facility_where)
          (Queryable.extra base (_membership_extra_tables t) _membership_extra_where))
        (_collection_extra_tables t) _collection_extra_where)
      res := by
  rw [filter_by_hierarchy_ok_iff] at h
  obtain ⟨q4, q5, q6, q7, h1, h2, h3, h4, h5⟩ := h
  have e0 : ExtendsExtra
      (Queryable.extra
        (Queryable.orQ
          (Queryable.extra base [] member_via_facility_where)
          (Queryable.extra base (_membership_extra_tables t) _membership_extra_where))
        (_collection_extra_tables t) _collection_extra_where)
      (phase1 t base su rk tu) := by
    unfold phase1 step_role_tables step_collection step_target_union _add_extras
    rw [htu]
    simp only [if_true]
    cases hc : (truthyO su || truthyRK rk) with
    | true => simp only [if_true]; exact .step _ _ _ _ (.refl _)
    | false => simp only [Bool.false_eq_true, if_false]; exact .refl _
  exact e0.trans ((step_ref_constraint_extends h1).trans
    ((step_role_kind_extends h2).trans ((step_ref_constraint_extends h3).trans
      ((step_ref_constraint_extends h4).trans (step_ref_constraint_extends h5)))))

theorem C1_witness :
    truthyO (some (.entity 7)) = true ∧
    ExtendsExtra
      (Queryable.extra
        (Queryable.orQ
          (Queryable.extra .baseQ [] member_via_facility_where)
          (Queryable.extra .baseQ (_membership_extra_tables t0) _membership_extra_where))
        (_collection_extra_tables t0) _collection_extra_where)
      (Queryable.extra
        (Queryable.extra
          (Queryable.orQ
            (Queryable.extra .baseQ [] member_via_facility_where)
            (Queryable.extra .baseQ (_membership_extra_tables t0) _membership_extra_where))
          (_collection_extra_tables t0) _collection_extra_where)
        [] ["target_user.id = 7"]) :=
  ⟨rfl,
   C1_union_before_shared_joins t0 sch0 .baseQ none none none none (some (.entity 7))
    (Queryable.extra
      (Queryable.extra
        (Queryable.orQ
          (Queryable.extra .baseQ [] member_via_facility_where)
          (Queryable.extra .baseQ (_membership_extra_tables t0) _membership_extra_where))
        (_collection_extra_tables t0) _collection_extra_where)
      [] ["target_user.id = 7"]) rfl rfl⟩

/-- Claim C1 counterexample: the claim as stated quantifies over every
call with a *non-null* `target_user`, but the code decides presence by
truthiness (`if target_user:`): with the non-null but falsy
`target_user = 0` the call succeeds and its result contains no
queryset-level union at all. -/
theorem C1_counterexample :
    some (Ref.intLit 0) ≠ (none : Option Ref) ∧
    filter_by_hierarchy t0 sch0 .baseQ none none none none (some (.intLit 0)) =
      .ok (Queryable.extra .baseQ (_collection_extra_tables t0) _collection_extra_where) ∧
    Queryable.hasOr
      (Queryable.extra .baseQ (_collection_extra_tables t0) _collection_extra_where) = false :=
  ⟨by simp, rfl, rfl⟩

/-- Claim C3 counterexample: `role_kind` is *not* routed through the
Reference Resolver.  A deferred field reference that the resolver
itself accepts (here `F("id")`, which `_as_sql_reference` resolves to
the fully qualified base-table column) makes the whole
`filter_by_hierarchy` call fail with a `TypeError` when supplied as
`role_kind`, instead of being resolved and attached as the claim
states. -/
theorem C3_counterexample :
    _as_sql_reference sch0 (.fexpr ⟨["exact"], ["id"]⟩) =
      .ok (.strRef "kolibriauth_facilityuser.id") ∧
    filter_by_hierarchy t0 sch0 .baseQ none
      (some (.ofRef (.fexpr ⟨["exact"], ["id"]⟩))) none none none =
      .error .pyTypeError :=
  ⟨rfl, rfl⟩

/-- Claim C3 (amended): in Phase 2, each of the four reference
parameters (`source_user`, `ancestor_collection`,
`descendant_collection`, `target_user`) that is supplied truthy is
resolved via the Reference Resolver (`_as_sql_reference` — entity
handle, literal, or deferred field reference all accepted) and attached
as an equality condition against its Phase-1 alias; `role_kind` is not
passed through the Reference Resolver: it is normalised by
`role_kind_list` (a single string becomes a one-element list) and
attached as the set-membership condition `role.kind IN (...)`. -/
theorem C3_phase2_resolution (t : TableNames) (sch : Schema) (base : Queryable)
    (su : Option Ref) (rk : Option RKArg) (ac dc tu : Option Ref) (res : Queryable)
    (h : filter_by_hierarchy t sch base su rk ac dc tu = .ok res) :
    (∀ r, su = some r → r.truthy = true → ∃ v, _as_sql_reference sch r = .ok v ∧
      ("source_user.id = " ++ sqlRefStr v) ∈ res.allWheres) ∧
    (∀ r, ac = some r → r.truthy = true → ∃ v, _as_sql_reference sch r = .ok v ∧
      ("ancestor_collection.id = " ++ sqlRefStr v) ∈ res.allWheres) ∧
    (∀ r, dc = some r → r.truthy = true → ∃ v, _as_sql_reference sch r = .ok v ∧
      ("descendant_collection.id = " ++ sqlRefStr v) ∈ res.allWheres) ∧
    (∀ r, tu = some r → r.truthy = true → ∃ v, _as_sql_reference sch r = .ok v ∧
      ("target_user.id = " ++ sqlRefStr v) ∈ res.allWheres) ∧
    (∀ k, rk = some k → k.truthy = true → ∃ kinds, role_kind_list k = .ok kinds ∧
      ("role.kind IN " ++ kinds_string kinds) ∈ res.allWheres) := by
  rw [filter_by_hierarchy_ok_iff] at h
  obtain ⟨q4, q5, q6, q7, h1, h2, h3, h4, h5⟩ := h
  refine ⟨?_, ?_, ?_, ?_, ?_⟩
  · intro r hsu htr
    subst hsu
    obtain ⟨v, hv, hq⟩ := step_ref_constraint_adds htr h1
    refine ⟨v, hv, ?_⟩
    have hmem : ("source_user.id = " ++ sqlRefStr v) ∈ q4.allWheres := by
      subst hq
      simp [Queryable.allWheres]
    exact ((step_role_kind_extends h2).trans ((step_ref_constraint_extends h3).trans
      ((step_ref_constraint_extends h4).trans
        (step_ref_constraint_extends h5)))).allWheres_mem hmem
  · intro r hac htr
    subst hac
    obtain ⟨v, hv, hq⟩ := step_ref_constraint_adds htr h3
    refine ⟨v, hv, ?_⟩
    have hmem : ("ancestor_collection.id = " ++ sqlRefStr v) ∈ q6.allWheres := by
      subst hq
      simp [Queryable.allWheres]
    exact ((step_ref_constraint_extends h4).trans
      (step_ref_constraint_extends h5)).allWheres_mem hmem
  · intro r hdc htr
    subst hdc
    obtain ⟨v, hv, hq⟩ := step_ref_constraint_adds htr h4
    refine ⟨v, hv, ?_⟩
    have hmem : ("descendant_collection.id = " ++ sqlRefStr v) ∈ q7.allWheres := by
      subst hq
      simp [Queryable.allWheres]
    exact (step_ref_constraint_extends h5).allWheres_mem hmem
  · intro r htu htr
    subst htu
    obtain ⟨v, hv, hq⟩ := step_ref_constraint_adds htr h5
    refine ⟨v, hv, ?_⟩
    subst hq
    simp [Queryable.allWheres]
  · intro k hk htr
    subst hk
    obtain ⟨kinds, hkk, hq⟩ := step_role_kind_adds htr h2
    refine ⟨kinds, hkk, ?_⟩
    have hmem : ("role.kind IN " ++ kinds_string kinds) ∈ q5.allWheres := by
      subst hq
      simp [Queryable.allWheres]
    exact ((step_ref_constraint_extends h3).trans
      ((step_ref_constraint_extends h4).trans
        (step_ref_constraint_extends h5))).allWheres_mem hmem

theorem C3_witness :
    ∃ v, _as_sql_reference sch0 (.entity 1) = .ok v ∧
      ("source_user.id = " ++ sqlRefStr v) ∈
        (Queryable.extra
          (Queryable.extra
            (Queryable.extra .baseQ (_collection_extra_tables t0) _collection_extra_where)
            (_role_extra_tables t0) _role_extra_where)
          [] ["source_user.id = 1"]).allWheres :=
  (C3_phase2_resolution t0 sch0 .baseQ (some (.entity 1)) none none none none
    (Queryable.extra
      (Queryable.extra
        (Queryable.extra .baseQ (_collection_extra_tables t0) _collection_extra_where)
        (_role_extra_tables t0) _role_extra_where)
      [] ["source_user.id = 1"]) rfl).1 (.entity 1) rfl rfl

theorem step_role_kind_congr {k1 k2 : RKArg} (h1 : k1.truthy = true)
    (h2 : k2.truthy = true) (he : role_kind_list k1 = role_kind_list k2)
    (q : Queryable) :
    step_role_kind q (some k1) = step_role_kind q (some k2) := by
  simp [step_role_kind, h1, h2, he]

theorem step_role_tables_congr {k1 k2 : RKArg} (h1 : k1.truthy = true)
    (h2 : k2.truthy = true) (t : TableNames) (q : Queryable) (su : Option Ref) :
    step_role_tables t q su (some k1) = step_role_tables t q su (some k2) := by
  simp [step_role_tables, truthyRK, h1, h2]

/-- Modelled from the spec: how the external SQL engine evaluates the
generated `role.kind IN ('k1','k2',...)` clause on a row whose role
kind is `v` — the row matches iff its kind equals one of the listed
kinds. -/
def role_kind_in_sem (l : List String) (v : String) : Bool :=
  l.any (fun kk => v == kk)

/-- Claim C6 (amended): for every *nonempty* string `k` (truthiness
gates presence, so the empty string behaves as an omitted parameter
while `[""]` does not), calling `filter_by_hierarchy` with
`role_kind = k` produces exactly the same resulting queryable as
calling it with `role_kind = [k]`; and for every truthy list of kinds
the attached condition is `role.kind IN (that set)`, whose engine
semantics selects the union of the rows matching any listed kind. -/
theorem C6_role_kind_set_semantics (t : TableNames) (sch : Schema) (base : Queryable)
    (su : Option Ref) (ac dc tu : Option Ref) (k : String) (l : List String)
    (res : Queryable)
    (hk : k ≠ "") (hl : l ≠ [])
    (h : filter_by_hierarchy t sch base su (some (.ofList l)) ac dc tu = .ok res) :
    filter_by_hierarchy t sch base su (some (.ofRef (.strLit k))) ac dc tu =
      filter_by_hierarchy t sch base su (some (.ofList [k])) ac dc tu ∧
    ("role.kind IN " ++ kinds_string l) ∈ res.allWheres ∧
    (∀ v, role_kind_in_sem l v = true ↔ ∃ kk ∈ l, v = kk) := by
  have h1 : (RKArg.ofRef (.strLit k)).truthy = true := by
    simp [RKArg.truthy, Ref.truthy, hk]
  have h2 : (RKArg.ofList [k]).truthy = true := rfl
  have hlt : (RKArg.ofList l).truthy = true := by
    cases l with
    | nil => exact absurd rfl hl
    | cons a t2 => rfl
  refine ⟨?_, ?_, ?_⟩
  · have he : role_kind_list (.ofRef (.strLit k)) = role_kind_list (.ofList [k]) := rfl
    simp only [filter_by_hierarchy, step_role_tables_congr h1 h2,
      step_role_kind_congr h1 h2 he]
  · rw [filter_by_hierarchy_ok_iff] at h
    obtain ⟨q4, q5, q6, q7, hh1, hh2, hh3, hh4, hh5⟩ := h
    obtain ⟨kinds, hkk, hq⟩ := step_role_kind_adds hlt hh2
    have hkl : kinds = l := (Except.ok.inj hkk).symm
    subst hkl
    have hmem : ("role.kind IN " ++ kinds_string kinds) ∈ q5.allWheres := by
      subst hq
      simp [Queryable.allWheres]
    exact ((step_ref_constraint_extends hh3).trans
      ((step_ref_constraint_extends hh4).trans
        (step_ref_constraint_extends hh5))).allWheres_mem hmem
  · intro v
    simp [role_kind_in_sem, List.any_eq_true, beq_iff_eq]

/-- Claim C6 counterexample: the claim as stated quantifies over
*every* string `k`, but for `k = ""` the two calls do not produce the
same predicate: `role_kind = ""` is falsy and is skipped entirely,
while `role_kind = [""]` is a nonempty (truthy) list and attaches the
role join and the condition `role.kind IN ('')` — under an
interpretation falsifying exactly that clause the two results evaluate
differently. -/
theorem C6_counterexample :
    filter_by_hierarchy t0 sch0 .baseQ none (some (.ofRef (.strLit ""))) none none none =
      .ok (Queryable.extra .baseQ (_collection_extra_tables t0) _collection_extra_where) ∧
    filter_by_hierarchy t0 sch0 .baseQ none (some (.ofList [""])) none none none =
      .ok (Queryable.extra
        (Queryable.extra
          (Queryable.extra .baseQ (_collection_extra_tables t0) _collection_extra_where)
          (_role_extra_tables t0) _role_extra_where)
        [] ["role.kind IN ('')"]) ∧
    Queryable.eval (fun s => !(s == "role.kind IN ('')"))
      (Queryable.extra .baseQ (_collection_extra_tables t0) _collection_extra_where) = true ∧
    Queryable.eval (fun s => !(s == "role.kind IN ('')"))
      (Queryable.extra
        (Queryable.extra
          (Queryable.extra .baseQ (_collection_extra_tables t0) _collection_extra_where)
          (_role_extra_tables t0) _role_extra_where)
        [] ["role.kind IN ('')"]) = false :=
  ⟨rfl, rfl, rfl, rfl⟩

theorem C6_witness :
    filter_by_hierarchy t0 sch0 .baseQ none (some (.ofRef (.strLit "ADMIN"))) none none none =
      filter_by_hierarchy t0 sch0 .baseQ none (some (.ofList ["ADMIN"])) none none none ∧
    ("role.kind IN " ++ kinds_string ["ADMIN", "COACH"]) ∈
      (Queryable.extra
        (Queryable.extra
          (Queryable.extra .baseQ (_collection_extra_tables t0) _collection_extra_where)
          (_role_extra_tables t0) _role_extra_where)
        [] ["role.kind IN ('ADMIN','COACH')"]).allWheres ∧
    (∀ v, role_kind_in_sem ["ADMIN", "COACH"] v = true ↔
      ∃ kk ∈ ["ADMIN", "COACH"], v = kk) :=
  C6_role_kind_set_semantics t0 sch0 .baseQ none none none none "ADMIN" ["ADMIN", "COACH"]
    (Queryable.extra
      (Queryable.extra
        (Queryable.extra .baseQ (_collection_extra_tables t0) _collection_extra_where)
        (_role_extra_tables t0) _role_extra_where)
      [] ["role.kind IN ('ADMIN','COACH')"])
    (by decide) (by decide) rfl

/-- Claim C7: the five Phase-2 value constraints are conjunctive and
mutually order-independent — for any fixed choice of supplied
parameters, attaching the phase-2 clause groups in *any* permutation
after the fixed Phase-1 structural joins denotes the same predicate
(under every interpretation of the raw clauses) as the queryable
`filter_by_hierarchy` actually returns. -/
theorem C7_phase2_order_independence (t : TableNames) (sch : Schema) (base : Queryable)
    (su : Option Ref) (rk : Option RKArg) (ac dc tu : Option Ref)
    (cs cs2 : List (List String)) (res : Queryable) (I : String → Bool)
    (h : filter_by_hierarchy t sch base su rk ac dc tu = .ok res)
    (hc : phase2_clauses sch su rk ac dc tu = .ok cs)
    (hp : cs.Perm cs2) :
    Queryable.eval I (applyWheres (phase1 t base su rk tu) cs2) =
      Queryable.eval I res := by
  rw [filter_by_hierarchy_eq_phases, hc] at h
  simp only [Except.map, Except.ok.injEq] at h
  subst h
  rw [eval_applyWheres, eval_applyWheres, perm_all_eq _ hp]

theorem C7_witness :
    Queryable.eval (fun _ => true)
      (applyWheres (phase1 t0 .baseQ (some (.entity 1)) (some (.ofList ["ADMIN"])) none)
        [["role.kind IN ('ADMIN')"], ["source_user.id = 1"], ["ancestor_collection.id = 3"]]) =
    Queryable.eval (fun _ => true)
      (Queryable.extra
        (Queryable.extra
          (Queryable.extra
            (Queryable.extra
              (Queryable.extra .baseQ (_collection_extra_tables t0) _collection_extra_where)
              (_role_extra_tables t0) _role_extra_where)
            [] ["source_user.id = 1"])
          [] ["role.kind IN ('ADMIN')"])
        [] ["ancestor_collection.id = 3"]) :=
  C7_phase2_order_independence t0 sch0 .baseQ (some (.entity 1)) (some (.ofList ["ADMIN"]))
    (some (.intLit 3)) none none
    [["source_user.id = 1"], ["role.kind IN ('ADMIN')"], ["ancestor_collection.id = 3"]]
    [["role.kind IN ('ADMIN')"], ["source_user.id = 1"], ["ancestor_collection.id = 3"]]
    (Queryable.extra
      (Queryable.extra
        (Queryable.extra
          (Queryable.extra
            (Queryable.extra .baseQ (_collection_extra_tables t0) _collection_extra_where)
            (_role_extra_tables t0) _role_extra_where)
          [] ["source_user.id = 1"])
        [] ["role.kind IN ('ADMIN')"])
      [] ["ancestor_collection.id = 3"])
    (fun _ => true) rfl rfl
    (List.Perm.swap ["role.kind IN ('ADMIN')"] ["source_user.id = 1"]
      [["ancestor_collection.id = 3"]])
